import Mathlib

/-!
Shallow embedding of the usage-telemetry subsystem of the hopsworks
client SDK (`python/hopsworks_common/usage.py`).

Modelling conventions:
- A Python function intercepted by the decorator is identified by its
  defining module and simple name (`__module__`, `__name__`).
- A call's outcome is `Except PyError α`: `.ok v` when the function
  returns `v`, `.error e` when it raises the exception `e`.
- The process-wide mutable globals of the module (`_is_enabled`,
  `_method_counter`, `_backend_hostname`, `_backend_version`, and the
  queue of jobs handed to the thread-pool executor) are gathered in a
  `UsageState` record; every operation is explicit state passing.
- `random.random()` (seeded once with the fixed constant 42) is a
  deterministic stream of rationals in [0,1): a function `Nat → ℚ`
  together with a cursor that advances on each draw.
- Elapsed wall-clock durations (`time.perf_counter` differences) are
  rationals, in seconds.
-/

set_option autoImplicit false

namespace Usage

/-- Identity of a wrapped Python function: its `__module__` and `__name__`. -/
structure Method where
  module : String
  name : String
  deriving DecidableEq, Repr

/-- A Python exception as observed by the wrapper: its type and message.
`str(exception)` is taken to be `msg`. -/
structure PyError where
  excType : String
  msg : String
  deriving DecidableEq, Repr

/-- Model of `MethodCounter._get_method_name`: `m.__module__ + m.__name__`
(plain string concatenation, no separator). -/
def _get_method_name (m : Method) : String :=
  m.module ++ m.name

/-- State of the `MethodCounter` singleton plus the `random` module's
seeded stream (consumed only by `should_sample`). `method_counts` maps a
call-site key to its count, defaulting to 0 (`dict.get(s, 0)`). -/
structure MethodCounter where
  method_counts : String → Nat
  randStream : Nat → ℚ
  randIdx : Nat

/-- Model of `MethodCounter.add`: `self.method_counts[s] = self.method_counts.get(s, 0) + 1`. -/
def MethodCounter.add (c : MethodCounter) (m : Method) : MethodCounter :=
  { c with
    method_counts := fun s =>
      if s = _get_method_name m then c.method_counts (_get_method_name m) + 1
      else c.method_counts s }

/-- Model of `MethodCounter.get_count`: `self.method_counts.get(s, 0)`. -/
def MethodCounter.get_count (c : MethodCounter) (m : Method) : Nat :=
  c.method_counts (_get_method_name m)

/-- Draw one value from the seeded pseudo-random stream. -/
def MethodCounter.draw (c : MethodCounter) : ℚ × MethodCounter :=
  (c.randStream c.randIdx, { c with randIdx := c.randIdx + 1 })

/-- Model of `MethodCounter.should_sample`: tiered sampling policy on the current
count; `random.random() < p` consumes one draw from the shared stream. -/
def MethodCounter.should_sample (c : MethodCounter) (m : Method) : Bool × MethodCounter :=
  let cnt := c.get_count m
  if cnt < 100 then (true, c)
  else if cnt < 1000 then
    let (r, c') := c.draw
    (r < (1 : ℚ)/10, c')
  else if cnt < 10000 then
    let (r, c') := c.draw
    (r < (1 : ℚ)/100, c')
  else
    let (r, c') := c.draw
    (r < (1 : ℚ)/1000, c')

/-- A report job handed to `_executor.submit(_send_log, execution_time,
func, exception)`: the arguments captured at submission time. -/
structure LogJob where
  execution_time : ℚ
  func : Method
  exception : Option PyError
  deriving DecidableEq, Repr

/-- The module-level mutable state of `usage.py`. -/
structure UsageState where
  is_enabled : Bool
  counter : MethodCounter
  jobs : List LogJob
  backend_hostname : Option String
  backend_version : Option String

/-- Model of `enable()`. -/
def enable (st : UsageState) : UsageState :=
  { st with is_enabled := true }

/-- Model of `disable()`. -/
def disable (st : UsageState) : UsageState :=
  { st with is_enabled := false }

/-- Model of `_is_target_hostname`: membership in the one-element literal set holding "c.app.hopsworks.ai". -/
def _is_target_hostname (hostname : String) : Bool :=
  ["c.app.hopsworks.ai"].contains hostname

/-- Model of `init_usage(hostname, backend_version)`. -/
def init_usage (hostname backend_version : String) (st : UsageState) : UsageState :=
  { st with
    backend_hostname := some hostname
    backend_version := some backend_version
    is_enabled := st.is_enabled && _is_target_hostname hostname }

/-- Which steps of the wrapper's `finally` block raise, modelling
"any step of the telemetry finalizer itself raises". The single
`try/except Exception: pass` around the block swallows the first raise
and abandons the rest of the block. -/
structure FinalizerFaults where
  add_raises : Bool
  sample_raises : Bool
  submit_raises : Bool
  deriving DecidableEq, Repr

/-- No step of the finalizer raises. -/
def FinalizerFaults.none : FinalizerFaults :=
  ⟨false, false, false⟩

/-- The wrapper's `finally` block: update the counter, then
`if exception or should_sample(func)` (short-circuit: the sampler is not
consulted when an exception occurred) submit a report job. Any raise
inside the block is caught by the surrounding `except Exception: pass`,
leaving the state as of the raising step. -/
def wrapperFinally (fl : FinalizerFaults) (st : UsageState) (m : Method)
    (exc : Option PyError) (elapsed : ℚ) : UsageState :=
  if fl.add_raises then st
  else
    let st1 := { st with counter := st.counter.add m }
    match exc with
    | some e =>
      if fl.submit_raises then st1
      else { st1 with jobs := st1.jobs ++ [⟨elapsed, m, some e⟩] }
    | none =>
      if fl.sample_raises then st1
      else
        let bc := st1.counter.should_sample m
        let st2 := { st1 with counter := bc.2 }
        if bc.1 then
          if fl.submit_raises then st2
          else { st2 with jobs := st2.jobs ++ [⟨elapsed, m, none⟩] }
        else st2

/-- The exception captured by the wrapper's `except` clause: `none` when
the call returned, `some e` when it raised `e`. -/
def excOpt {α : Type} : Except PyError α → Option PyError
  | .ok _ => Option.none
  | .error e => some e

/-- One call of the instrumented wrapper produced by `method_logger`
while the gate was enabled at wrap time. `fres` is what the original
function does on these arguments (returns or raises); `elapsed` is the
measured wall-clock duration. The wrapper re-raises the captured
exception unchanged and runs the `finally` block in both cases. -/
def wrapperCall {α : Type} (fl : FinalizerFaults) (st : UsageState) (m : Method)
    (fres : Except PyError α) (elapsed : ℚ) : Except PyError α × UsageState :=
  if st.is_enabled = false then (fres, st)
  else (fres, wrapperFinally fl st m (excOpt fres) elapsed)

/-- What `method_logger(func)` returns: either `func` itself (gate off at
wrap time) or the instrumented wrapper closing over `func`. -/
inductive WrappedFn where
  | func (m : Method)
  | wrapper (m : Method)
  deriving DecidableEq, Repr

/-- Model of `method_logger`: decorator entry point; the gate is read once at wrap time. -/
def method_logger (is_enabled : Bool) (m : Method) : WrappedFn :=
  if is_enabled = false then .func m else .wrapper m

/-- Calling whatever `method_logger` returned: the original function has
no effect on the telemetry state; the wrapper behaves as `wrapperCall`. -/
def callFn {α : Type} (fl : FinalizerFaults) (w : WrappedFn) (st : UsageState)
    (fres : Except PyError α) (elapsed : ℚ) : Except PyError α × UsageState :=
  match w with
  | .func _ => (fres, st)
  | .wrapper m => wrapperCall fl st m fres elapsed

/-- Iterated calls: `n` sequential calls of the instrumented wrapper for method `m`, with
no finalizer faults; call `i` has outcome `results i` and duration `t i`. -/
def iterCalls {α : Type} (m : Method) (results : Nat → Except PyError α)
    (t : Nat → ℚ) : Nat → UsageState → UsageState
  | 0, st => st
  | n + 1, st =>
    (wrapperCall FinalizerFaults.none (iterCalls m results t n st) m (results n) (t n)).2

/-! ### Identity provider (`EnvironmentAttribute.get_user_id` and friends)

Strings handled by the identity provider are modelled as `List Char`, so
that Python's `str.rstrip()` is explicit. The user-id file under the
configuration directory is `Option (List Char)` (`none` = file absent). -/

/-- Python's default `str.rstrip()` whitespace set (ASCII part; the
identifiers at stake never contain non-ASCII characters). -/
def isPyWhitespace (c : Char) : Bool :=
  c = ' ' || c = '\t' || c = '\n' || c = '\r' || c = '\x0b' || c = '\x0c'

/-- Model of `content.rstrip()`: drop trailing whitespace. -/
def rstrip (l : List Char) : List Char :=
  (l.reverse.dropWhile isPyWhitespace).reverse

/-- Lowercase hexadecimal digit, the alphabet of `uuid.uuid4().hex`. -/
def isLowerHexDigit (c : Char) : Bool :=
  (48 ≤ c.toNat && c.toNat ≤ 57) || (97 ≤ c.toNat && c.toNat ≤ 102)

/-- Model of `_generate_user_id()`: `"HOPSWORKSID=" + uuid_hex[:16]`, where
`uuid_hex = uuid.uuid4().hex.replace("-", "")` is supplied by the `uuid`
library (32 lowercase hex digits; `.hex` contains no hyphen, so the
`replace` is the identity). -/
def _generate_user_id (uuid_hex : List Char) : List Char :=
  "HOPSWORKSID=".toList ++ uuid_hex.take 16

/-- The per-instance cache `self._user_id` of `EnvironmentAttribute`
(`None` initially). -/
structure EnvAttrState where
  _user_id : Option (List Char)
  deriving DecidableEq, Repr

/-- Contents of the user-id file in the configuration directory
(`none` = the file does not exist). -/
structure FSState where
  user_id_file : Option (List Char)
  deriving DecidableEq, Repr

/-- Python truthiness of the cache slot: `if not self._user_id` re-resolves
when the cache is `None` or the empty string. -/
def pyTruthy : Option (List Char) → Bool
  | Option.none => false
  | some v => !v.isEmpty

/-- Model of `EnvironmentAttribute.get_user_id`: return the cached id when truthy;
otherwise read the user-id file (rstripped) if it exists, else generate a
fresh id and write it to the file. Returns the id together with the new
cache and file-system states. -/
def get_user_id (uuid_hex : List Char) (env : EnvAttrState) (fs : FSState) :
    List Char × EnvAttrState × FSState :=
  if pyTruthy env._user_id then (env._user_id.getD [], env, fs)
  else
    match fs.user_id_file with
    | some content =>
      let v := rstrip content
      (v, ⟨some v⟩, fs)
    | Option.none =>
      let v := _generate_user_id uuid_hex
      (v, ⟨some v⟩, ⟨some v⟩)

/-! ### The dispatched report job (`_send_log`) -/

/-- Python `int()` applied to a real number: truncation toward zero. -/
def pyInt (q : ℚ) : ℤ :=
  if 0 ≤ q then ⌊q⌋ else ⌈q⌉

/-- The lazily cached environment facts used by `_send_log`; their values
come from external libraries (`platform`, `datetime`, `__import__`) and
the identity provider, and are fixed per process. -/
structure EnvSnapshot where
  user_id : String
  tz : String
  datetimeUtc : String
  platform : String
  python_version : String
  hsml_version : String
  hsfs_version : String
  hopsworks_version : String

/-- Model of `_hash_string`: md5 hex digest of a truthy string, empty otherwise.
The digest itself (`hashlib`) is external, passed as `md5hex`. -/
def _hash_string (md5hex : String → String) (input_string : Option String) : String :=
  match input_string with
  | some s => if s = "" then "" else md5hex s
  | Option.none => ""

/-- The telemetry event record built by `_send_log` (the `log_data`
dictionary). `stack_trace` serialisation (`traceback`) is external,
passed as `tb`. -/
structure LogData where
  user_id : String
  tz : String
  datetime : String
  backend_hostname : String
  backend_version : Option String
  platform : String
  python_version : String
  hsml_version : String
  hsfs_version : String
  hopsworks_version : String
  method_name : String
  module_name : String
  execution_time : ℤ
  num_call : Nat
  error_message : Option String
  stack_trace : Option String

/-- Model of `_send_log(execution_time, func, exception)`: build the event record
from the environment snapshot, the module state and the job's captured
arguments. `execution_time` is `int(execution_time * 1000)`;
`num_call` is `get_count(func)` at execution time. -/
def _send_log (md5hex : String → String) (tb : PyError → String)
    (env : EnvSnapshot) (st : UsageState) (job : LogJob) : LogData :=
  { user_id := env.user_id
    tz := env.tz
    datetime := env.datetimeUtc
    backend_hostname := _hash_string md5hex st.backend_hostname
    backend_version := st.backend_version
    platform := env.platform
    python_version := env.python_version
    hsml_version := env.hsml_version
    hsfs_version := env.hsfs_version
    hopsworks_version := env.hopsworks_version
    method_name := job.func.name
    module_name := job.func.module
    execution_time := pyInt (job.execution_time * 1000)
    num_call := st.counter.get_count job.func
    error_message := job.exception.map PyError.msg
    stack_trace := job.exception.map tb }

/-- Written from the spec's words, for comparison with `_send_log`: "the
transmitted value is round(t * 1000)", elapsed time "rounded to the
nearest integer". -/
def execution_time_ms_spec (t : ℚ) : ℤ :=
  round (t * 1000)

/-! ### Concrete instances used by witnesses and counterexamples -/

/-- A representative wrapped method. -/
def mExample : Method :=
  ⟨"hsfs.feature_store", "get_feature_group"⟩

/-- A fresh `MethodCounter`: empty counts, seeded stream whose draws all
happen to be 1/2, cursor at 0. -/
def freshCounter : MethodCounter :=
  { method_counts := fun _ => 0, randStream := fun _ => (1 : ℚ)/2, randIdx := 0 }

/-- Module state right after import with the gate enabled. -/
def freshState : UsageState :=
  { is_enabled := true
    counter := freshCounter
    jobs := []
    backend_hostname := Option.none
    backend_version := Option.none }

/-- Module state with the gate disabled at call time. -/
def freshStateOff : UsageState :=
  { freshState with is_enabled := false }

/-- A sequence of successful calls. -/
def okResults : Nat → Except PyError Nat :=
  fun _ => Except.ok 0

/-- All calls take zero measured time. -/
def zeroTimes : Nat → ℚ :=
  fun _ => 0

/-- A representative exception. -/
def errExample : PyError :=
  ⟨"ValueError", "bad argument"⟩

/-- An environment snapshot with empty cached fields. -/
def envExample : EnvSnapshot :=
  ⟨"", "", "", "", "", "", "", ""⟩

/-- A report job whose call took 1.5 milliseconds. -/
def jobExample : LogJob :=
  ⟨3/2000, mExample, Option.none⟩

/-- A concrete `uuid.uuid4().hex` value: 32 lowercase hex digits. -/
def uuidExample : List Char :=
  "0123456789abcdef0123456789abcdef".toList

/-! ## Basic lemmas about the counter and sampler -/

theorem get_count_add_self (c : MethodCounter) (m : Method) :
    (c.add m).get_count m = c.get_count m + 1 := by
  simp [MethodCounter.add, MethodCounter.get_count]

theorem add_counts_mono (c : MethodCounter) (m : Method) (k : String) :
    c.method_counts k ≤ (c.add m).method_counts k := by
  simp only [MethodCounter.add]
  split <;> simp_all

theorem add_randStream (c : MethodCounter) (m : Method) :
    (c.add m).randStream = c.randStream := rfl

theorem add_randIdx (c : MethodCounter) (m : Method) :
    (c.add m).randIdx = c.randIdx := rfl

theorem should_sample_counts (c : MethodCounter) (m : Method) :
    (c.should_sample m).2.method_counts = c.method_counts := by
  simp only [MethodCounter.should_sample, MethodCounter.draw]
  split
  · rfl
  · split
    · rfl
    · split <;> rfl

theorem should_sample_randStream (c : MethodCounter) (m : Method) :
    (c.should_sample m).2.randStream = c.randStream := by
  simp only [MethodCounter.should_sample, MethodCounter.draw]
  split
  · rfl
  · split
    · rfl
    · split <;> rfl

theorem should_sample_randIdx (c : MethodCounter) (m : Method) :
    (c.should_sample m).2.randIdx
      = c.randIdx + (if 100 ≤ c.get_count m then 1 else 0) := by
  simp only [MethodCounter.should_sample, MethodCounter.draw]
  split
  · rename_i h
    rw [if_neg (by omega : ¬ 100 ≤ c.get_count m)]
    rfl
  · rename_i h
    have h100 : 100 ≤ c.get_count m := by omega
    split
    · simp [h100]
    · split <;> simp [h100]

theorem should_sample_true_of_lt (c : MethodCounter) (m : Method)
    (h : c.get_count m < 100) : c.should_sample m = (true, c) := by
  simp [MethodCounter.should_sample, h]

/-- Claim C10: `should_sample` never modifies the call-counter map — every
key's count (and in particular `get_count`) is identical before and after —
and it advances the shared pseudo-random stream exactly when the count is
100 or more. -/
theorem should_sample_frame (c : MethodCounter) (m : Method) :
    (c.should_sample m).2.method_counts = c.method_counts ∧
    (∀ m' : Method, (c.should_sample m).2.get_count m' = c.get_count m') ∧
    (c.should_sample m).2.randIdx
      = c.randIdx + (if 100 ≤ c.get_count m then 1 else 0) ∧
    (c.should_sample m).2.randStream = c.randStream := by
  refine ⟨should_sample_counts c m, ?_, should_sample_randIdx c m,
    should_sample_randStream c m⟩
  intro m'
  simp [MethodCounter.get_count, should_sample_counts]

/-! ## The interception wrapper: transparency and the disabled gate -/

/-- Claim C1: for every function wrapped while the gate is on, the wrapped
call returns exactly the value the function returns and raises exactly the
exception it raises (`fres` is the function's own outcome), even if any
step of the telemetry finalizer raises (`fl` is arbitrary: counter update,
sampling, or job submission; identity resolution runs inside `_send_log`
on the executor's thread, outside the caller's path altogether, so the
wrapper's outcome cannot depend on it). -/
theorem wrapped_call_transparent {α : Type} (fl : FinalizerFaults)
    (st : UsageState) (m : Method) (fres : Except PyError α) (elapsed : ℚ) :
    (callFn fl (method_logger true m) st fres elapsed).1 = fres := by
  have hw : method_logger true m = WrappedFn.wrapper m := rfl
  rw [hw]
  simp only [callFn, wrapperCall]
  split <;> rfl

/-- Claim C2: wrapping is a no-op when the gate is off — `method_logger`
returns the function itself when the gate is off at wrap time, and a
wrapper created while the gate was on leaves the state untouched (no
counter update, no job) when the gate is off at call time. -/
theorem disabled_gate_noop {α : Type} (fl : FinalizerFaults)
    (st : UsageState) (m : Method) (fres : Except PyError α) (elapsed : ℚ)
    (hoff : st.is_enabled = false) :
    method_logger false m = WrappedFn.func m ∧
    wrapperCall fl st m fres elapsed = (fres, st) := by
  constructor
  · simp [method_logger]
  · simp [wrapperCall, hoff]

/-- Witness for `disabled_gate_noop` at a concrete disabled state. -/
theorem disabled_gate_noop_witness :
    method_logger false mExample = WrappedFn.func mExample ∧
    wrapperCall FinalizerFaults.none freshStateOff mExample
      (Except.ok (0 : Nat)) 1 = (Except.ok 0, freshStateOff) :=
  disabled_gate_noop FinalizerFaults.none freshStateOff mExample
    (Except.ok 0) 1 rfl

/-! ## The enable gate and `init_usage` -/

/-- Claim C7: after `init_usage`, the gate is on iff it was on before AND
the hostname is in the fixed allow-list, whose single member is the
literal target hostname; in particular `init_usage` never turns an off
gate on. -/
theorem init_usage_narrows_gate (st : UsageState) (h v : String) :
    (init_usage h v st).is_enabled = (st.is_enabled && _is_target_hostname h) ∧
    (_is_target_hostname h = true ↔ h = "c.app.hopsworks.ai") ∧
    ((init_usage h v st).is_enabled = true → st.is_enabled = true) := by
  refine ⟨rfl, ?_, ?_⟩
  · simp [_is_target_hostname, eq_comm]
  · intro hon
    have : (st.is_enabled && _is_target_hostname h) = true := hon
    exact (Bool.and_eq_true _ _ |>.mp this).1

/-- Witness for `init_usage_narrows_gate`: an off gate stays off even for
the allow-listed hostname. -/
theorem init_usage_narrows_gate_witness :
    (init_usage "c.app.hopsworks.ai" "4.2" freshStateOff).is_enabled
      = (freshStateOff.is_enabled && _is_target_hostname "c.app.hopsworks.ai") :=
  (init_usage_narrows_gate freshStateOff "c.app.hopsworks.ai" "4.2").1

/-! ## State evolution of the wrapper's finalizer -/

theorem should_sample_get_count (c : MethodCounter) (m m' : Method) :
    (c.should_sample m).2.get_count m' = c.get_count m' := by
  simp [MethodCounter.get_count, should_sample_counts]

theorem wrapperCall_enabled_eq {α : Type} (fl : FinalizerFaults)
    (st : UsageState) (m : Method) (fres : Except PyError α) (elapsed : ℚ)
    (hen : st.is_enabled = true) :
    wrapperCall fl st m fres elapsed
      = (fres, wrapperFinally fl st m (excOpt fres) elapsed) := by
  unfold wrapperCall
  rw [hen]
  rfl

theorem wrapperFinally_none_some (st : UsageState) (m : Method) (e : PyError)
    (elapsed : ℚ) :
    wrapperFinally FinalizerFaults.none st m (some e) elapsed
      = { st with
          counter := st.counter.add m
          jobs := st.jobs ++ [⟨elapsed, m, some e⟩] } := rfl

theorem wrapperFinally_none_none (st : UsageState) (m : Method) (elapsed : ℚ) :
    wrapperFinally FinalizerFaults.none st m Option.none elapsed
      = if ((st.counter.add m).should_sample m).1 = true
        then { st with
               counter := ((st.counter.add m).should_sample m).2
               jobs := st.jobs ++ [⟨elapsed, m, Option.none⟩] }
        else { st with counter := ((st.counter.add m).should_sample m).2 } := rfl

theorem wrapperFinally_fields (fl : FinalizerFaults) (st : UsageState)
    (m : Method) (exc : Option PyError) (elapsed : ℚ) :
    (wrapperFinally fl st m exc elapsed).is_enabled = st.is_enabled ∧
    (wrapperFinally fl st m exc elapsed).backend_hostname = st.backend_hostname ∧
    (wrapperFinally fl st m exc elapsed).backend_version = st.backend_version := by
  simp only [wrapperFinally]
  split
  · exact ⟨rfl, rfl, rfl⟩
  · split
    · split <;> exact ⟨rfl, rfl, rfl⟩
    · split
      · exact ⟨rfl, rfl, rfl⟩
      · split
        · split <;> exact ⟨rfl, rfl, rfl⟩
        · exact ⟨rfl, rfl, rfl⟩

theorem wrapperCall_is_enabled {α : Type} (fl : FinalizerFaults)
    (st : UsageState) (m : Method) (fres : Except PyError α) (elapsed : ℚ) :
    (wrapperCall fl st m fres elapsed).2.is_enabled = st.is_enabled := by
  unfold wrapperCall
  split
  · rfl
  · exact (wrapperFinally_fields fl st m (excOpt fres) elapsed).1

theorem wrapperFinally_counts_mono (fl : FinalizerFaults) (st : UsageState)
    (m : Method) (exc : Option PyError) (elapsed : ℚ) (k : String) :
    st.counter.method_counts k
      ≤ (wrapperFinally fl st m exc elapsed).counter.method_counts k := by
  have hadd := add_counts_mono st.counter m k
  have hss :
      ((st.counter.add m).should_sample m).2.method_counts k
        = (st.counter.add m).method_counts k := by
    rw [should_sample_counts]
  simp only [wrapperFinally]
  split
  · exact le_refl _
  · split
    · split <;> exact hadd
    · split
      · exact hadd
      · split
        · split
          · show st.counter.method_counts k
              ≤ ((st.counter.add m).should_sample m).2.method_counts k
            rw [hss]; exact hadd
          · show st.counter.method_counts k
              ≤ ((st.counter.add m).should_sample m).2.method_counts k
            rw [hss]; exact hadd
        · show st.counter.method_counts k
            ≤ ((st.counter.add m).should_sample m).2.method_counts k
          rw [hss]; exact hadd

theorem wrapperCall_counts_mono {α : Type} (fl : FinalizerFaults)
    (st : UsageState) (m : Method) (fres : Except PyError α) (elapsed : ℚ)
    (k : String) :
    st.counter.method_counts k
      ≤ (wrapperCall fl st m fres elapsed).2.counter.method_counts k := by
  unfold wrapperCall
  split
  · exact le_refl _
  · exact wrapperFinally_counts_mono fl st m (excOpt fres) elapsed k

theorem wrapperCall_enabled_count {α : Type} (st : UsageState) (m : Method)
    (fres : Except PyError α) (elapsed : ℚ) (hen : st.is_enabled = true) :
    (wrapperCall FinalizerFaults.none st m fres elapsed).2.counter.get_count m
      = st.counter.get_count m + 1 := by
  rw [wrapperCall_enabled_eq FinalizerFaults.none st m fres elapsed hen]
  cases fres with
  | error e => exact get_count_add_self st.counter m
  | ok v =>
    show (wrapperFinally FinalizerFaults.none st m Option.none elapsed).counter.get_count m = _
    rw [wrapperFinally_none_none]
    split
    · show ((st.counter.add m).should_sample m).2.get_count m = _
      rw [should_sample_get_count, get_count_add_self]
    · show ((st.counter.add m).should_sample m).2.get_count m = _
      rw [should_sample_get_count, get_count_add_self]

/-- Claim C3: while the gate is enabled, a call whose wrapped execution
raises always submits a report job, for every counter state and every
pseudo-random stream — the sampler is not even consulted (short-circuit
of `exception or should_sample(func)`). -/
theorem error_always_reports {α : Type} (st : UsageState) (m : Method)
    (e : PyError) (elapsed : ℚ) (hen : st.is_enabled = true) :
    (wrapperCall FinalizerFaults.none st m
        (Except.error (α := α) e) elapsed).2.jobs
      = st.jobs ++ [⟨elapsed, m, some e⟩] := by
  rw [wrapperCall_enabled_eq FinalizerFaults.none st m _ elapsed hen]
  rfl

/-- Witness for `error_always_reports`: one raising call from the fresh
enabled state queues exactly its report job. -/
theorem error_always_reports_witness :
    (wrapperCall FinalizerFaults.none freshState mExample
        (Except.error (α := Nat) errExample) 1).2.jobs
      = freshState.jobs ++ [⟨1, mExample, some errExample⟩] :=
  error_always_reports freshState mExample errExample 1 rfl

/-! ## Sequential calls -/

theorem iterCalls_succ {α : Type} (m : Method) (res : Nat → Except PyError α)
    (t : Nat → ℚ) (n : Nat) (st : UsageState) :
    iterCalls m res t (n + 1) st
      = (wrapperCall FinalizerFaults.none (iterCalls m res t n st) m (res n)
          (t n)).2 := rfl

theorem iterCalls_count {α : Type} (m : Method) (res : Nat → Except PyError α)
    (t : Nat → ℚ) (n : Nat) (st : UsageState) (hen : st.is_enabled = true) :
    (iterCalls m res t n st).is_enabled = true ∧
    (iterCalls m res t n st).counter.get_count m
      = st.counter.get_count m + n := by
  induction n with
  | zero => exact ⟨hen, rfl⟩
  | succ n ih =>
    obtain ⟨ih1, ih2⟩ := ih
    refine ⟨?_, ?_⟩
    · simp only [iterCalls]
      rw [wrapperCall_is_enabled]
      exact ih1
    · simp only [iterCalls]
      rw [wrapperCall_enabled_count _ _ _ _ ih1, ih2]
      omega

/-- One wrapped call while the count of `m` is at most 98: the counter of
`m` advances by one, exactly one job is queued, and the pseudo-random
stream is untouched (the `cnt < 100` tier does not draw). -/
theorem wrapperCall_step_low {α : Type} (st : UsageState) (m : Method)
    (fres : Except PyError α) (elapsed : ℚ) (hen : st.is_enabled = true)
    (hc : st.counter.get_count m ≤ 98) :
    (wrapperCall FinalizerFaults.none st m fres elapsed).2
      = { st with
          counter := st.counter.add m
          jobs := st.jobs ++ [⟨elapsed, m, excOpt fres⟩] } := by
  have hlt : (st.counter.add m).get_count m < 100 := by
    rw [get_count_add_self]; omega
  have hss := should_sample_true_of_lt (st.counter.add m) m hlt
  rw [wrapperCall_enabled_eq FinalizerFaults.none st m fres elapsed hen]
  cases fres with
  | error e => rfl
  | ok v =>
    show wrapperFinally FinalizerFaults.none st m Option.none elapsed = _
    rw [wrapperFinally_none_none, hss]
    rfl

theorem iterCalls_low {α : Type} (m : Method) (res : Nat → Except PyError α)
    (t : Nat → ℚ) (n : Nat) (st : UsageState) (hen : st.is_enabled = true)
    (hb : st.counter.get_count m + n ≤ 99) :
    (iterCalls m res t n st).is_enabled = true ∧
    (iterCalls m res t n st).counter.get_count m
      = st.counter.get_count m + n ∧
    (iterCalls m res t n st).jobs.length = st.jobs.length + n ∧
    (iterCalls m res t n st).counter.randStream = st.counter.randStream ∧
    (iterCalls m res t n st).counter.randIdx = st.counter.randIdx := by
  induction n with
  | zero => exact ⟨hen, rfl, rfl, rfl, rfl⟩
  | succ n ih =>
    obtain ⟨ih1, ih2, ih3, ih4, ih5⟩ := ih (by omega)
    have hstep := wrapperCall_step_low (iterCalls m res t n st) m (res n)
      (t n) ih1 (by omega)
    simp only [iterCalls, hstep]
    refine ⟨ih1, ?_, ?_, ?_, ?_⟩
    · rw [get_count_add_self, ih2]
      omega
    · rw [List.length_append, ih3]
      simp
      omega
    · rw [add_randStream, ih4]
    · rw [add_randIdx, ih5]

/-- Claim C4: `n` sequential wrapped calls with the gate on advance the
per-call-site counter by exactly `n`, whatever each call returns or
raises; and no operation of the subsystem ever decreases any key's
count. -/
theorem counter_exact_and_monotone {α : Type} (m : Method)
    (res : Nat → Except PyError α) (t : Nat → ℚ) (n : Nat) (st : UsageState)
    (hen : st.is_enabled = true) :
    (iterCalls m res t n st).counter.get_count m
      = st.counter.get_count m + n ∧
    (∀ (β : Type) (fl : FinalizerFaults) (st' : UsageState) (m' : Method)
        (fres : Except PyError β) (elapsed : ℚ) (k : String),
      st'.counter.method_counts k
        ≤ (wrapperCall fl st' m' fres elapsed).2.counter.method_counts k) ∧
    (∀ (c : MethodCounter) (m' : Method) (k : String),
      (c.should_sample m').2.method_counts k = c.method_counts k) ∧
    (∀ (h v : String) (st' : UsageState),
      (init_usage h v st').counter = st'.counter) ∧
    (∀ st' : UsageState,
      (enable st').counter = st'.counter ∧ (disable st').counter = st'.counter) := by
  refine ⟨(iterCalls_count m res t n st hen).2, ?_, ?_, ?_, ?_⟩
  · intro β fl st' m' fres elapsed k
    exact wrapperCall_counts_mono fl st' m' fres elapsed k
  · intro c m' k
    rw [should_sample_counts]
  · intro h v st'
    rfl
  · intro st'
    exact ⟨rfl, rfl⟩

/-- Witness for `counter_exact_and_monotone`: three calls from the fresh
state set the counter of the wrapped method to three. -/
theorem counter_exact_and_monotone_witness :
    (iterCalls mExample okResults zeroTimes 3 freshState).counter.get_count
        mExample
      = freshState.counter.get_count mExample + 3 :=
  (counter_exact_and_monotone mExample okResults zeroTimes 3 freshState rfl).1

/-! ## The sampling policy around the 100-call boundary -/

/-- Claim C5 as amended: the sampler deterministically returns true
whenever the recorded count is below 100, and — because the wrapper
increments the counter before consulting the sampler — the first 99
sequential calls to a freshly wrapped function each submit a dispatch
job. (The 100th call is not deterministic: see
`hundredth_call_not_deterministic`.) -/
theorem sample_true_below_100 {α : Type} (c : MethodCounter) (m : Method)
    (st : UsageState) (res : Nat → Except PyError α) (t : Nat → ℚ)
    (hcnt : c.get_count m < 100) (hen : st.is_enabled = true)
    (h0 : st.counter.get_count m = 0) :
    c.should_sample m = (true, c) ∧
    (iterCalls m res t 99 st).jobs.length = st.jobs.length + 99 := by
  refine ⟨should_sample_true_of_lt c m hcnt, ?_⟩
  exact (iterCalls_low m res t 99 st hen (by omega)).2.2.1

/-- Witness for `sample_true_below_100` at the fresh enabled state. -/
theorem sample_true_below_100_witness :
    freshCounter.should_sample mExample = (true, freshCounter) ∧
    (iterCalls mExample okResults zeroTimes 99 freshState).jobs.length
      = freshState.jobs.length + 99 :=
  sample_true_below_100 freshCounter mExample freshState okResults zeroTimes
    (by decide) rfl rfl

/-- The 100th sequential call: the counter is incremented to 100 before
the sampling check, so the decision falls into the probabilistic
`cnt < 1000` tier; when the pending pseudo-random draw is not below 0.1,
no job is submitted. -/
theorem wrapperCall_step_100 {α : Type} (st : UsageState) (m : Method)
    (v : α) (elapsed : ℚ) (hen : st.is_enabled = true)
    (hc : st.counter.get_count m = 99)
    (hr : ¬ (st.counter.randStream st.counter.randIdx < (1 : ℚ)/10)) :
    (wrapperCall FinalizerFaults.none st m (Except.ok v) elapsed).2.jobs
      = st.jobs := by
  have hadd : (st.counter.add m).get_count m = 100 := by
    rw [get_count_add_self, hc]
  have hbc : ((st.counter.add m).should_sample m).1 = false := by
    simp only [MethodCounter.should_sample, MethodCounter.draw, hadd]
    rw [if_neg (by omega : ¬ (100 : Nat) < 100), if_pos (by omega : (100 : Nat) < 1000)]
    exact decide_eq_false hr
  rw [wrapperCall_enabled_eq FinalizerFaults.none st m (Except.ok v) elapsed hen]
  show (wrapperFinally FinalizerFaults.none st m Option.none elapsed).jobs = st.jobs
  rw [wrapperFinally_none_none, if_neg (by rw [hbc]; exact Bool.false_ne_true)]

/-- Counterexample to claim C5: from a fresh counter, with the seeded
stream's pending draw equal to 1/2, only 99 of the first 100 sequential
calls submit a dispatch job — the 100th call is dropped by the
probabilistic tier, so not every one of the 100 calls is sampled. -/
theorem hundredth_call_not_deterministic :
    (iterCalls mExample okResults zeroTimes 100 freshState).jobs.length = 99 ∧
    (iterCalls mExample okResults zeroTimes 100 freshState).jobs.length ≠ 100 := by
  obtain ⟨hen, hcnt, hjobs, hstream, hidx⟩ :=
    iterCalls_low mExample okResults zeroTimes 99 freshState rfl (by decide)
  have hc : (iterCalls mExample okResults zeroTimes 99 freshState).counter.get_count
      mExample = 99 := by
    rw [hcnt]
    rfl
  have hr : ¬ ((iterCalls mExample okResults zeroTimes 99 freshState).counter.randStream
        ((iterCalls mExample okResults zeroTimes 99 freshState).counter.randIdx)
      < (1 : ℚ)/10) := by
    rw [hstream, hidx]
    show ¬ ((1 : ℚ)/2 < (1 : ℚ)/10)
    norm_num
  have hstep := wrapperCall_step_100
    (iterCalls mExample okResults zeroTimes 99 freshState) mExample 0
    (zeroTimes 99) hen hc hr
  have h100 : iterCalls mExample okResults zeroTimes 100 freshState
      = (wrapperCall FinalizerFaults.none
          (iterCalls mExample okResults zeroTimes 99 freshState) mExample
          (Except.ok 0) (zeroTimes 99)).2 := by
    rw [show (100 : Nat) = 99 + 1 from rfl, iterCalls_succ]
    rfl
  constructor
  · rw [h100, hstep, hjobs]
    rfl
  · rw [h100, hstep, hjobs]
    decide

/-! ## The transmitted execution time -/

/-- Counterexample to claim C8: a call that took 1.5 milliseconds
(elapsed 3/2000 s) is transmitted as `execution_time = 1` —
`int(execution_time * 1000)` truncates — while rounding to the nearest
integer would give 2. -/
theorem execution_time_not_rounded_cex :
    jobExample.execution_time = 3/2000 ∧
    (_send_log id (fun _ => "") envExample freshState jobExample).execution_time
      = 1 ∧
    execution_time_ms_spec (3/2000) = 2 := by
  refine ⟨rfl, ?_, ?_⟩
  · show pyInt ((3/2000 : ℚ) * 1000) = 1
    unfold pyInt
    rw [if_pos (by norm_num), show ((3/2000 : ℚ) * 1000) = 3/2 by norm_num]
    norm_num
  · unfold execution_time_ms_spec
    rw [show ((3/2000 : ℚ) * 1000) = 3/2 by norm_num]
    norm_num [round_eq]

/-- Claim C8 as amended: for every non-negative elapsed duration `t` in
seconds, the transmitted `execution_time` is `⌊t * 1000⌋` — milliseconds
truncated toward zero (Python `int()`), not rounded to nearest. -/
theorem execution_time_truncated (md5hex : String → String)
    (tb : PyError → String) (env : EnvSnapshot) (st : UsageState)
    (job : LogJob) (h : 0 ≤ job.execution_time) :
    (_send_log md5hex tb env st job).execution_time
      = ⌊job.execution_time * 1000⌋ := by
  show pyInt (job.execution_time * 1000) = _
  unfold pyInt
  rw [if_pos (mul_nonneg h (by norm_num))]

/-- Witness for `execution_time_truncated` at a zero-duration job. -/
theorem execution_time_truncated_witness :
    (_send_log id (fun _ => "") envExample freshState
        ⟨0, mExample, Option.none⟩).execution_time
      = ⌊((⟨0, mExample, Option.none⟩ : LogJob).execution_time * 1000)⌋ :=
  execution_time_truncated id (fun _ => "") envExample freshState
    ⟨0, mExample, Option.none⟩ le_rfl

/-! ## The call-site key -/

/-- Counterexample to claim C9: the key is the bare concatenation
`module + name`, so the distinct functions `("ab", "c")` and
`("a", "bc")` share the key `"abc"`. -/
theorem method_key_collision_cex :
    _get_method_name ⟨"ab", "c"⟩ = _get_method_name ⟨"a", "bc"⟩ ∧
    (⟨"ab", "c"⟩ : Method) ≠ ⟨"a", "bc"⟩ := by
  constructor
  · decide
  · decide

/-- Claim C9 as amended: the key derivation is injective only on
functions with the same defining module — two distinct names in one
module never share a key — while distinct (module, name) pairs whose
concatenations coincide do collide. -/
theorem method_key_injective_same_module (m1 m2 : Method)
    (hmod : m1.module = m2.module) (hname : m1.name ≠ m2.name) :
    _get_method_name m1 ≠ _get_method_name m2 := by
  intro h
  apply hname
  unfold _get_method_name at h
  rw [hmod] at h
  have hd := congrArg String.data h
  simp only [String.data_append] at hd
  exact String.ext (List.append_cancel_left hd)

/-- Witness for `method_key_injective_same_module`: two functions of one
module with different names get different keys. -/
theorem method_key_injective_same_module_witness :
    _get_method_name ⟨"hsfs.feature_store", "get_feature_group"⟩
      ≠ _get_method_name ⟨"hsfs.feature_store", "get_feature_view"⟩ :=
  method_key_injective_same_module _ _ rfl (by decide)

/-! ## The persisted anonymous identity -/

theorem dropWhile_eq_self_of_not (p : Char → Bool) (l : List Char)
    (h : ∀ c ∈ l, p c = false) : l.dropWhile p = l := by
  cases l with
  | nil => rfl
  | cons a l =>
    rw [List.dropWhile_cons, if_neg]
    rw [h a (by simp)]
    simp

theorem rstrip_eq_self (l : List Char)
    (h : ∀ c ∈ l, isPyWhitespace c = false) : rstrip l = l := by
  unfold rstrip
  rw [dropWhile_eq_self_of_not _ _ (fun c hc => h c (List.mem_reverse.mp hc)),
    List.reverse_reverse]

theorem ws_false_of_hex (c : Char) (h : isLowerHexDigit c = true) :
    isPyWhitespace c = false := by
  by_contra hws
  rw [Bool.not_eq_false] at hws
  simp only [isPyWhitespace, Bool.or_eq_true, decide_eq_true_eq] at hws
  rcases hws with ((((h1 | h1) | h1) | h1) | h1) | h1 <;> subst h1 <;>
    exact absurd h (by decide)

theorem generate_user_id_no_ws (u : List Char)
    (hu : ∀ c ∈ u, isLowerHexDigit c = true) :
    ∀ c ∈ _generate_user_id u, isPyWhitespace c = false := by
  have hfix : ∀ c ∈ "HOPSWORKSID=".toList, isPyWhitespace c = false := by decide
  intro c hc
  unfold _generate_user_id at hc
  rcases List.mem_append.mp hc with h | h
  · exact hfix c h
  · exact ws_false_of_hex c (hu c (List.mem_of_mem_take h))

/-- The generated identifier is truthy (it starts with the fixed
non-empty prefix), so it stays in the cache. -/
theorem generate_user_id_truthy (u : List Char) :
    pyTruthy (some (_generate_user_id u)) = true := rfl

/-- Claim C6: in the first-call scenario (cache falsy, no persisted
file), `get_user_id` generates and persists an identifier; a second call
in the same process returns the same value with no state change and no
dependence on the file system; a fresh provider over the same
configuration directory returns the persisted identifier; and the
generated identifier is the fixed prefix followed by exactly 16
hexadecimal characters drawn from the UUID. -/
theorem user_id_idempotent_roundtrip (u : List Char) (env : EnvAttrState)
    (fs : FSState) (hlen : u.length = 32)
    (hhex : ∀ c ∈ u, isLowerHexDigit c = true)
    (henv : pyTruthy env._user_id = false)
    (hfs : fs.user_id_file = Option.none) :
    (get_user_id u env fs).1 = _generate_user_id u ∧
    (get_user_id u env fs).2.2.user_id_file = some (_generate_user_id u) ∧
    (∀ (u' : List Char) (fs' : FSState),
      get_user_id u' (get_user_id u env fs).2.1 fs'
        = ((get_user_id u env fs).1, (get_user_id u env fs).2.1, fs')) ∧
    (∀ u' : List Char,
      get_user_id u' ⟨Option.none⟩ (get_user_id u env fs).2.2
        = ((get_user_id u env fs).1, ⟨some (get_user_id u env fs).1⟩,
            (get_user_id u env fs).2.2)) ∧
    (_generate_user_id u).take 12 = "HOPSWORKSID=".toList ∧
    (_generate_user_id u).drop 12 = u.take 16 ∧
    ((_generate_user_id u).drop 12).length = 16 ∧
    (∀ c ∈ (_generate_user_id u).drop 12, isLowerHexDigit c = true) := by
  have h1 : get_user_id u env fs
      = (_generate_user_id u, ⟨some (_generate_user_id u)⟩,
          ⟨some (_generate_user_id u)⟩) := by
    unfold get_user_id
    rw [henv, hfs]
    rfl
  have hpre : ("HOPSWORKSID=".toList).length = 12 := by decide
  have htake : (_generate_user_id u).take 12 = "HOPSWORKSID=".toList := by
    unfold _generate_user_id
    rw [← hpre, List.take_left]
  have hdrop : (_generate_user_id u).drop 12 = u.take 16 := by
    unfold _generate_user_id
    rw [← hpre, List.drop_left]
  refine ⟨by rw [h1], by rw [h1], ?_, ?_, htake, hdrop, ?_, ?_⟩
  · intro u' fs'
    rw [h1]
    unfold get_user_id
    rw [generate_user_id_truthy]
    rfl
  · intro u'
    rw [h1]
    show get_user_id u' ⟨Option.none⟩ ⟨some (_generate_user_id u)⟩ = _
    unfold get_user_id
    have : rstrip (_generate_user_id u) = _generate_user_id u :=
      rstrip_eq_self _ (generate_user_id_no_ws u hhex)
    simp only [pyTruthy, Bool.false_eq_true, if_false, this]
  · rw [hdrop, List.length_take, hlen]
    decide
  · rw [hdrop]
    intro c hc
    exact hhex c (List.mem_of_mem_take hc)

/-- Witness for `user_id_idempotent_roundtrip` at a concrete UUID:
a second call after the generating call returns the generated id and
leaves the state alone. -/
theorem user_id_idempotent_roundtrip_witness :
    get_user_id uuidExample
        (get_user_id uuidExample ⟨Option.none⟩ ⟨Option.none⟩).2.1 ⟨Option.none⟩
      = ((get_user_id uuidExample ⟨Option.none⟩ ⟨Option.none⟩).1,
          (get_user_id uuidExample ⟨Option.none⟩ ⟨Option.none⟩).2.1,
          ⟨Option.none⟩) :=
  (user_id_idempotent_roundtrip uuidExample ⟨Option.none⟩ ⟨Option.none⟩
    (by decide) (by decide) rfl rfl).2.2.1 uuidExample ⟨Option.none⟩

end Usage
